import Mathlib

/-!
Verification of the Moning weekly article aggregation and recap pipeline.

The development shallowly embeds the Python sources of the repository:

* `aws-deployment/functions/batch-summarizer/lambda_function.py`
  (DynamoDB summary cache, batch summarization loop, Lambda handler);
* `aws-deployment/functions/api-handler/lambda_function.py`
  (single and batch summary read endpoints);
* `tech_industry_recap.py` (feed fetching, keyword categorization,
  importance scoring);
* `enhanced_tech_recap.py` (trend analysis, headline selection);
* `industry_weekly_recap.py` (bucketed categorization);
* `test_ai_summarization.py` (uuid5-based article identifiers).

Machine integers do not occur; Python floats for scores are modelled as
exact rationals (all score constants are decimal literals), timestamps as
integers counting seconds, and Python strings as Lean strings.  External
effects (Bedrock model calls, DynamoDB availability, feed downloads) are
modelled as explicit oracle parameters; a Python exception raised by an
external call is an `Except.error` / `none` result of the oracle.
-/

namespace Moning

/-! ## Text model

Python tests keyword membership with `keyword in text` (substring test) on
lower-cased text.  We model text as `List Char`, lower-casing with
`Char.toLower`, and implement the substring test directly.
-/

/-- Model of Python string text, as a list of characters. -/
abbrev Text := List Char

/-- Lower-case a string into a `Text`, modelling Python `str.lower()`. -/
def lowerT (s : String) : Text := s.toList.map Char.toLower

/-- Does the first list occur at the very start of the second one? -/
def textLeads : Text → Text → Bool
  | [], _ => true
  | _ :: _, [] => false
  | a :: as, b :: bs => a == b && textLeads as bs

/-- Substring test: does `n` occur contiguously inside the second list?
Models Python `n in text`. -/
def occursIn (n : Text) : Text → Bool
  | [] => textLeads n []
  | c :: rest => textLeads n (c :: rest) || occursIn n rest

/-- Models Python `any(keyword in text for keyword in kws)`. -/
def anyKeyIn (kws : List String) (t : Text) : Bool :=
  kws.any (fun k => occursIn k.toList t)

/-! ## Batch summarizer: DynamoDB cache
(`aws-deployment/functions/batch-summarizer/lambda_function.py`)

Timestamps are seconds.  `CACHE_DURATION_HOURS = 24` gives a freshness
window of `86400` seconds; the `ttl` attribute is stamped 30 days
(`2592000` seconds) ahead.
-/

/-- Default Bedrock model identifier (`MODEL_ID`). -/
def MODEL_ID : String := "openai.gpt-oss-20b-1:0"

/-- Freshness window in seconds: `timedelta(hours=CACHE_DURATION_HOURS)`. -/
def cacheDurationSecs : ℤ := 24 * 3600

/-- Retention window in seconds: `timedelta(days=30)`. -/
def retentionSecs : ℤ := 30 * 86400

/-- Metadata dict stored next to a cached summary by `cache_summary`. -/
structure Metadata where
  title : String
  source : String
  category : String
  content_length : ℕ
deriving DecidableEq, Repr

/-- One DynamoDB item of the `article-summaries` table. -/
structure Item where
  summary : String
  created_at : ℤ
  ttl : ℤ
  model_used : String
  metadata : Metadata
deriving DecidableEq, Repr

/-- Association-list lookup by key (first match wins). -/
def alookup {α : Type} : List (String × α) → String → Option α
  | [], _ => none
  | p :: rest, k => if k = p.1 then some p.2 else alookup rest k

/-- The DynamoDB table, as an association list keyed by `article_id`.
`put_item` replaces the whole item for a key, which we model by consing:
`alookup` finds the most recent write. -/
abbrev Table := List (String × Item)

/-- Model of `table.get_item(Key=...)`: the item currently stored under
`article_id`, if any. -/
def getItem (t : Table) (article_id : String) : Option Item :=
  alookup t article_id

/-- Model of `table.put_item(Item=item)`: upsert of the item. -/
def putItem (t : Table) (article_id : String) (item : Item) : Table :=
  (article_id, item) :: t

/-- Embedding of `get_cached_summary` (batch summarizer, lines 161-181):
return the stored summary if the entry exists and
`datetime.utcnow() - created_at < timedelta(hours=CACHE_DURATION_HOURS)`,
else `None`.  `now` is the current time in seconds. -/
def get_cached_summary (t : Table) (now : ℤ) (article_id : String) :
    Option String :=
  match getItem t article_id with
  | some item =>
      if now - item.created_at < cacheDurationSecs then some item.summary
      else none
  | none => none

/-- Embedding of `cache_summary` (batch summarizer, lines 260-281): stamp
`created_at = now` and `ttl = now + 30 days` and upsert.  A write failure
(`writeOk = false`, a raised exception of `put_item`) is swallowed and
leaves the table unchanged. -/
def cache_summary (writeOk : Bool) (t : Table) (article_id : String)
    (summary : String) (meta : Metadata) (now : ℤ) : Table :=
  if writeOk then
    putItem t article_id
      { summary := summary
        created_at := now
        ttl := now + retentionSecs
        model_used := MODEL_ID
        metadata := meta }
  else t

/-- Model of the DynamoDB TTL sweep: the backing store may delete items
whose `ttl` timestamp has passed (spec 4.4 `sweep`, passive expiry); items
whose `ttl` lies in the future survive. -/
def sweepTable (t : Table) (now : ℤ) : Table :=
  t.filter (fun p => now < p.2.ttl)

theorem lookup_putItem (t : Table) (id : String) (item : Item) :
    getItem (putItem t id item) id = some item := by
  simp [getItem, putItem, alookup]

theorem lookup_sweepTable (t : Table) (now : ℤ) (id : String) (item : Item)
    (h : getItem t id = some item) (hlt : now < item.ttl) :
    getItem (sweepTable t now) id = some item := by
  induction t with
  | nil => simp [getItem, alookup] at h
  | cons p rest ih =>
      by_cases hk : id = p.1
      · have hpi : p.2 = item := by simpa [getItem, alookup, hk] using h
        subst hpi
        simp [sweepTable, getItem, alookup, hk, hlt]
      · have h' : getItem rest id = some item := by
          simpa [getItem, alookup, hk] using h
        by_cases hp : now < p.2.ttl
        · simpa [sweepTable, getItem, alookup, hk, hp, List.filter_cons]
            using ih h'
        · simpa [sweepTable, getItem, alookup, hk, hp, List.filter_cons]
            using ih h' 

/-- C1.  A `get` within the freshness window after a `put` returns exactly
the stored summary; a `get` once the window has elapsed returns `none`;
yet the stored item itself survives the TTL sweep at any time before
`created_at + 30 days`. -/
theorem cache_put_get_freshness (t : Table) (article_id summary : String)
    (meta : Metadata) (t0 t1 t2 : ℤ)
    (hfresh : t1 - t0 < cacheDurationSecs)
    (hstale : cacheDurationSecs ≤ t2 - t0)
    (hret : t2 < t0 + retentionSecs) :
    get_cached_summary (cache_summary true t article_id summary meta t0)
        t1 article_id = some summary
    ∧ get_cached_summary (cache_summary true t article_id summary meta t0)
        t2 article_id = none
    ∧ getItem (sweepTable
          (cache_summary true t article_id summary meta t0) t2) article_id
        = some { summary := summary, created_at := t0
                 ttl := t0 + retentionSecs, model_used := MODEL_ID
                 metadata := meta } := by
  refine ⟨?_, ?_, ?_⟩
  · simp [get_cached_summary, cache_summary, lookup_putItem, hfresh]
  · simp [get_cached_summary, cache_summary, lookup_putItem]
    omega
  · exact lookup_sweepTable _ t2 _ _
      (by simp [cache_summary, lookup_putItem]) (by simpa using hret)

/-- Closed instance of `cache_put_get_freshness`: written at time 0, read
fresh at one hour, stale at exactly 24 hours, still stored then. -/
theorem cache_put_get_freshness_witness :
    get_cached_summary (cache_summary true [] "a1" "the summary"
        ⟨"t", "s", "c", 3⟩ 0) 3600 "a1" = some "the summary"
    ∧ get_cached_summary (cache_summary true [] "a1" "the summary"
        ⟨"t", "s", "c", 3⟩ 0) 86400 "a1" = none
    ∧ getItem (sweepTable (cache_summary true [] "a1" "the summary"
        ⟨"t", "s", "c", 3⟩ 0) 86400) "a1"
        = some { summary := "the summary", created_at := 0
                 ttl := 0 + retentionSecs, model_used := MODEL_ID
                 metadata := ⟨"t", "s", "c", 3⟩ } :=
  cache_put_get_freshness [] "a1" "the summary" ⟨"t", "s", "c", 3⟩ 0 3600
    86400 (by decide) (by decide) (by decide)

/-! ## API handler
(`aws-deployment/functions/api-handler/lambda_function.py`)

The handler reads the same `article-summaries` table.  DynamoDB access for
one key may raise, which the batch loop catches per id; we model the read
as an oracle `lk : String → Except String (Option Item)` (error message,
missing item, or stored item).
-/

/-- Response of `handle_single_summary`, restricted to the fields the
claims are about: the HTTP status code and the `summary`, `created_at` and
`model_used` fields of a 200 body. -/
structure SingleResp where
  statusCode : ℕ
  summary : Option String
  created_at : Option ℤ
  model_used : Option String
deriving DecidableEq, Repr

/-- Embedding of `handle_single_summary` (api-handler, lines 88-140):
a missing/empty `article_id` gives 400; a stored item is returned with
status 200 (no freshness check appears in this function); otherwise 404. -/
def handle_single_summary (t : Table) (article_id : String) : SingleResp :=
  if article_id = "" then ⟨400, none, none, none⟩
  else
    match getItem t article_id with
    | some item => ⟨200, some item.summary, some item.created_at,
        some item.model_used⟩
    | none => ⟨404, none, none, none⟩

/-- One value of the `summaries` dict built by `handle_batch_summaries`:
a found record, Python `None` for an absent id, or an error record when
the lookup for that id raised. -/
inductive BatchEntry where
  | found (summary : String) (created_at : ℤ) (model_used : String)
      (metadata : Metadata)
  | absent
  | failed (message : String)
deriving DecidableEq, Repr

/-- Whether an entry increments `found_count` (only the `Item` branch). -/
def isFoundEntry : BatchEntry → Bool
  | .found _ _ _ _ => true
  | _ => false

/-- Per-id body of the batch loop: `table.get_item` wrapped in
`try/except`. -/
def fetchEntry (lk : String → Except String (Option Item))
    (article_id : String) : BatchEntry :=
  match lk article_id with
  | .error e => .failed e
  | .ok (some item) =>
      .found item.summary item.created_at item.model_used item.metadata
  | .ok none => .absent

/-- Python dict assignment `d[k] = v`: overwrite in place when the key is
present, append otherwise (insertion order is preserved). -/
def dictPut (d : List (String × BatchEntry)) (k : String) (v : BatchEntry) :
    List (String × BatchEntry) :=
  if (alookup d k).isSome then
    d.map (fun p => if p.1 = k then (k, v) else p)
  else d ++ [(k, v)]

/-- The `for article_id in article_ids` loop of `handle_batch_summaries`,
threading the `summaries` dict and `found_count`. -/
def batchLoop (lk : String → Except String (Option Item)) :
    List String → List (String × BatchEntry) → ℕ →
    List (String × BatchEntry) × ℕ
  | [], d, f => (d, f)
  | article_id :: rest, d, f =>
      let e := fetchEntry lk article_id
      batchLoop lk rest (dictPut d article_id e)
        (if isFoundEntry e then f + 1 else f)

/-- Response of `handle_batch_summaries`, restricted to the fields the
claims are about. -/
structure BatchResp where
  statusCode : ℕ
  summaries : List (String × BatchEntry)
  found : ℕ
  not_found : ℕ
  total_requested : ℕ
deriving DecidableEq, Repr

/-- Embedding of `handle_batch_summaries` (api-handler, lines 142-228).
`body = none` models a missing request body; `some ids` a parsed
`article_ids` array.  An empty array gives 400; otherwise the list is
truncated to its first 50 ids and each retained id is looked up. -/
def handle_batch_summaries (lk : String → Except String (Option Item))
    (body : Option (List String)) : BatchResp :=
  match body with
  | none => ⟨400, [], 0, 0, 0⟩
  | some article_ids =>
      if article_ids = [] then ⟨400, [], 0, 0, 0⟩
      else
        let ids := if article_ids.length > 50 then article_ids.take 50
                   else article_ids
        let r := batchLoop lk ids [] 0
        ⟨200, r.1, r.2, ids.length - r.2, ids.length⟩

/-- A table read oracle that never raises: plain access to table `t`. -/
def tableLk (t : Table) : String → Except String (Option Item) :=
  fun article_id => Except.ok (getItem t article_id)

/-- A concrete stale table: one entry written at time 0; at `now = 100000`
seconds its age exceeds the 24-hour freshness window. -/
def staleTable : Table :=
  [("a1", { summary := "S", created_at := 0, ttl := retentionSecs
            model_used := MODEL_ID, metadata := ⟨"t", "s", "c", 1⟩ })]

/-- C2, counterexample.  The claim says every read path that consumes a
cached summary treats an entry older than the freshness window as a miss;
but `handle_single_summary` serves the 100000-second-old entry of
`staleTable` with status 200 (only the batch summarizer's
`get_cached_summary` misses on it). -/
theorem api_serves_stale_counterexample :
    cacheDurationSecs ≤ (100000 : ℤ) - 0
    ∧ (handle_single_summary staleTable "a1").statusCode = 200
    ∧ (handle_single_summary staleTable "a1").summary = some "S"
    ∧ get_cached_summary staleTable 100000 "a1" = none := by
  refine ⟨by decide, ?_, ?_, ?_⟩ <;>
    simp [handle_single_summary, get_cached_summary, staleTable, getItem,
      alookup, cacheDurationSecs]

/-- C2, amended.  Only the batch summarizer's `get_cached_summary` applies
the freshness window: a stored entry older than the window is a miss
there, while the API handler's GET endpoint and POST batch lookup return
the stored entry regardless of its `created_at` age. -/
theorem freshness_only_in_batch_summarizer (t : Table) (now : ℤ)
    (article_id : String) (item : Item) (hne : article_id ≠ "")
    (hl : getItem t article_id = some item)
    (hstale : cacheDurationSecs ≤ now - item.created_at) :
    get_cached_summary t now article_id = none
    ∧ (handle_single_summary t article_id).statusCode = 200
    ∧ (handle_single_summary t article_id).summary = some item.summary
    ∧ (handle_batch_summaries (tableLk t) (some [article_id])).summaries
        = [(article_id, .found item.summary item.created_at
            item.model_used item.metadata)]
    ∧ (handle_batch_summaries (tableLk t) (some [article_id])).found = 1 := by
  refine ⟨?_, ?_, ?_, ?_, ?_⟩
  · simp only [get_cached_summary, hl]
    rw [if_neg]
    omega
  · simp [handle_single_summary, hne, hl]
  · simp [handle_single_summary, hne, hl]
  · simp [handle_batch_summaries, batchLoop, fetchEntry, tableLk, hl,
      dictPut, alookup]
  · simp [handle_batch_summaries, batchLoop, fetchEntry, tableLk, hl,
      dictPut, alookup, isFoundEntry]

/-- Closed instance of `freshness_only_in_batch_summarizer` on
`staleTable` at `now = 100000`. -/
theorem freshness_only_in_batch_summarizer_witness :
    get_cached_summary staleTable 100000 "a1" = none
    ∧ (handle_single_summary staleTable "a1").statusCode = 200
    ∧ (handle_single_summary staleTable "a1").summary = some "S"
    ∧ (handle_batch_summaries (tableLk staleTable) (some ["a1"])).summaries
        = [("a1", .found "S" 0 MODEL_ID ⟨"t", "s", "c", 1⟩)]
    ∧ (handle_batch_summaries (tableLk staleTable) (some ["a1"])).found
        = 1 :=
  freshness_only_in_batch_summarizer staleTable 100000 "a1"
    { summary := "S", created_at := 0, ttl := retentionSecs
      model_used := MODEL_ID, metadata := ⟨"t", "s", "c", 1⟩ }
    (by decide) (by simp [staleTable, getItem, alookup]) (by decide)

/-! ### Dict and loop lemmas for the batch endpoint -/

theorem alookup_append_single (d : List (String × BatchEntry))
    (k k' : String) (v : BatchEntry) (hnone : alookup d k = none) :
    alookup (d ++ [(k, v)]) k' = if k' = k then some v else alookup d k' := by
  induction d with
  | nil => by_cases h : k' = k <;> simp [alookup, h]
  | cons p rest ih =>
      have hk : ¬ k = p.1 := by
        intro hh
        simp [alookup, hh] at hnone
      have hrest : alookup rest k = none := by
        simpa [alookup, hk] using hnone
      by_cases hp : k' = p.1
      · have hk' : ¬ k' = k := by
          intro hh
          exact hk ((hh.symm.trans hp))
        have hpk : ¬ p.1 = k := fun hh => hk hh.symm
        simp [alookup, hp, hk', hpk]
      · simp [alookup, hp, ih hrest]

theorem alookup_overwrite (d : List (String × BatchEntry)) (k k' : String)
    (v : BatchEntry) :
    alookup (d.map (fun p => if p.1 = k then (k, v) else p)) k'
      = if k' = k then (if (alookup d k).isSome then some v else none)
        else alookup d k' := by
  induction d with
  | nil => by_cases h : k' = k <;> simp [alookup, h]
  | cons p rest ih =>
      by_cases hp : p.1 = k
      · by_cases h : k' = k
        · simp [alookup, hp, h]
        · simp [alookup, hp, h, ih]
      · have hkp : ¬ k = p.1 := fun hh => hp hh.symm
        by_cases h : k' = p.1
        · have hk' : ¬ k' = k := fun hh => hp (h.symm.trans hh)
          simp [alookup, hp, h, hk', hkp]
        · simp [alookup, hp, h, hkp, ih]

theorem alookup_dictPut (d : List (String × BatchEntry)) (k k' : String)
    (v : BatchEntry) :
    alookup (dictPut d k v) k' = if k' = k then some v else alookup d k' := by
  unfold dictPut
  by_cases hs : (alookup d k).isSome
  · rw [if_pos hs, alookup_overwrite]
    simp [hs]
  · rw [if_neg hs]
    refine alookup_append_single d k k' v ?_
    cases hh : alookup d k with
    | none => rfl
    | some _ => simp [hh] at hs

theorem keys_overwrite (d : List (String × BatchEntry)) (k : String)
    (v : BatchEntry) :
    (d.map (fun p => if p.1 = k then (k, v) else p)).map Prod.fst
      = d.map Prod.fst := by
  induction d with
  | nil => rfl
  | cons p rest ih =>
      by_cases hp : p.1 = k
      · simp [hp, ih]
      · simp [hp, ih]

theorem keys_dictPut (d : List (String × BatchEntry)) (k : String)
    (v : BatchEntry) :
    (dictPut d k v).map Prod.fst
      = if (alookup d k).isSome then d.map Prod.fst
        else d.map Prod.fst ++ [k] := by
  unfold dictPut
  by_cases hs : (alookup d k).isSome
  · rw [if_pos hs, if_pos hs]
    exact keys_overwrite d k v
  · simp [hs]

theorem alookup_eq_none_iff (d : List (String × BatchEntry)) (k : String) :
    alookup d k = none ↔ k ∉ d.map Prod.fst := by
  induction d with
  | nil => simp [alookup]
  | cons p rest ih =>
      by_cases h : k = p.1 <;> simp [alookup, h, ih]

theorem nodup_keys_dictPut (d : List (String × BatchEntry)) (k : String)
    (v : BatchEntry) (h : (d.map Prod.fst).Nodup) :
    ((dictPut d k v).map Prod.fst).Nodup := by
  rw [keys_dictPut]
  by_cases hs : (alookup d k).isSome
  · simpa [hs] using h
  · have hnone : alookup d k = none := by
      cases hh : alookup d k with
      | none => rfl
      | some _ => simp [hh] at hs
    have hk : k ∉ d.map Prod.fst := (alookup_eq_none_iff d k).mp hnone
    rw [if_neg hs, List.nodup_append]
    exact ⟨h, List.nodup_singleton k, by
      intro a ha hb
      rcases List.mem_singleton.mp hb with rfl
      exact hk ha⟩

theorem batchLoop_lookup (lk : String → Except String (Option Item))
    (ids : List String) (d : List (String × BatchEntry)) (f : ℕ)
    (k : String) :
    alookup ((batchLoop lk ids d f).1) k
      = if k ∈ ids then some (fetchEntry lk k) else alookup d k := by
  induction ids generalizing d f with
  | nil => simp [batchLoop]
  | cons i rest ih =>
      rw [batchLoop, ih]
      by_cases hr : k ∈ rest
      · simp [hr, List.mem_cons]
      · by_cases hi : k = i
        · simp [hr, hi, alookup_dictPut]
        · simp [hr, hi, alookup_dictPut]

theorem batchLoop_found (lk : String → Except String (Option Item))
    (ids : List String) (d : List (String × BatchEntry)) (f : ℕ) :
    (batchLoop lk ids d f).2
      = f + ids.countP (fun i => isFoundEntry (fetchEntry lk i)) := by
  induction ids generalizing d f with
  | nil => simp [batchLoop]
  | cons i rest ih =>
      rw [batchLoop, ih]
      by_cases hf : isFoundEntry (fetchEntry lk i)
      · simp [hf, List.countP_cons]
        omega
      · simp [hf, List.countP_cons]

theorem batchLoop_keys_mem (lk : String → Except String (Option Item))
    (ids : List String) (d : List (String × BatchEntry)) (f : ℕ)
    (k : String) :
    k ∈ ((batchLoop lk ids d f).1).map Prod.fst
      ↔ k ∈ ids ∨ k ∈ d.map Prod.fst := by
  have h := batchLoop_lookup lk ids d f k
  constructor
  · intro hm
    by_cases hi : k ∈ ids
    · exact Or.inl hi
    · refine Or.inr ?_
      by_contra hd
      have hd' : alookup d k = none := (alookup_eq_none_iff d k).mpr hd
      have hres : alookup ((batchLoop lk ids d f).1) k = none := by
        simpa [hi, hd'] using h
      exact ((alookup_eq_none_iff _ k).mp hres) hm
  · intro hm
    by_contra hnm
    have hnone : alookup ((batchLoop lk ids d f).1) k = none :=
      (alookup_eq_none_iff _ k).mpr hnm
    rcases hm with hi | hd
    · rw [if_pos hi] at h
      rw [hnone] at h
      exact Option.noConfusion h
    · by_cases hi : k ∈ ids
      · rw [if_pos hi] at h
        rw [hnone] at h
        exact Option.noConfusion h
      · rw [if_neg hi] at h
        have : alookup d k = none := hnone ▸ h.symm ▸ rfl
        exact ((alookup_eq_none_iff d k).mp (h ▸ hnone)) hd

theorem batchLoop_keys_nodup (lk : String → Except String (Option Item))
    (ids : List String) (d : List (String × BatchEntry)) (f : ℕ)
    (h : (d.map Prod.fst).Nodup) :
    (((batchLoop lk ids d f).1).map Prod.fst).Nodup := by
  induction ids generalizing d f with
  | nil => simpa [batchLoop] using h
  | cons i rest ih =>
      rw [batchLoop]
      exact ih _ _ (nodup_keys_dictPut _ _ _ h)

theorem handle_batch_summaries_eq (lk : String → Except String (Option Item))
    (article_ids : List String) (h : article_ids ≠ []) :
    handle_batch_summaries lk (some article_ids)
      = ⟨200, (batchLoop lk (article_ids.take 50) [] 0).1,
          (batchLoop lk (article_ids.take 50) [] 0).2,
          (article_ids.take 50).length
            - (batchLoop lk (article_ids.take 50) [] 0).2,
          (article_ids.take 50).length⟩ := by
  have hids : (if article_ids.length > 50 then article_ids.take 50
      else article_ids) = article_ids.take 50 := by
    by_cases hl : article_ids.length > 50
    · rw [if_pos hl]
    · rw [if_neg hl, List.take_of_length_le (by omega)]
  unfold handle_batch_summaries
  simp only [h, if_false, hids]

/-- C10.  On a non-empty id list the batch endpoint answers 200 over the
first 50 ids: one dict entry per retained id (no duplicate keys), each
entry being the stored summary, Python `None`, or an error record exactly
as the per-id lookup dictates; `found` counts the ids whose lookup
returned an item (so ids whose lookup raised count as not found) and
`found + not_found = total_requested = number of retained ids`. -/
theorem batch_endpoint_partitions (lk : String → Except String (Option Item))
    (article_ids : List String) (h : article_ids ≠ []) :
    (handle_batch_summaries lk (some article_ids)).statusCode = 200
    ∧ (handle_batch_summaries lk (some article_ids)).total_requested
        = (article_ids.take 50).length
    ∧ (handle_batch_summaries lk (some article_ids)).found
        = (article_ids.take 50).countP
            (fun i => isFoundEntry (fetchEntry lk i))
    ∧ (handle_batch_summaries lk (some article_ids)).found
        + (handle_batch_summaries lk (some article_ids)).not_found
        = (handle_batch_summaries lk (some article_ids)).total_requested
    ∧ (((handle_batch_summaries lk (some article_ids)).summaries).map
        Prod.fst).Nodup
    ∧ (∀ i, i ∈ ((handle_batch_summaries lk
          (some article_ids)).summaries).map Prod.fst
        ↔ i ∈ article_ids.take 50)
    ∧ (∀ i ∈ article_ids.take 50,
        alookup ((handle_batch_summaries lk (some article_ids)).summaries) i
          = some (fetchEntry lk i)) := by
  rw [handle_batch_summaries_eq lk article_ids h]
  refine ⟨rfl, rfl, ?_, ?_, ?_, ?_, ?_⟩
  · simpa using batchLoop_found lk (article_ids.take 50) [] 0
  · have hc := batchLoop_found lk (article_ids.take 50) [] 0
    have hle : (article_ids.take 50).countP
        (fun i => isFoundEntry (fetchEntry lk i))
        ≤ (article_ids.take 50).length := List.countP_le_length _
    simp only [hc]
    omega
  · exact batchLoop_keys_nodup lk _ [] 0 (by simp)
  · intro i
    simpa using batchLoop_keys_mem lk (article_ids.take 50) [] 0 i
  · intro i hi
    simpa [hi] using batchLoop_lookup lk (article_ids.take 50) [] 0 i

/-- A concrete batch read oracle: `"x"` is stored, `"bad"` raises,
anything else is absent. -/
def demoLk : String → Except String (Option Item) := fun article_id =>
  if article_id = "bad" then Except.error "boom"
  else if article_id = "x" then
    Except.ok (some { summary := "S", created_at := 0, ttl := retentionSecs
                      model_used := MODEL_ID, metadata := ⟨"t", "s", "c", 1⟩ })
  else Except.ok none

/-- Closed instance of `batch_endpoint_partitions` for the three-id
request `["x", "bad", "y"]` against `demoLk`. -/
theorem batch_endpoint_partitions_witness :
    (handle_batch_summaries demoLk (some ["x", "bad", "y"])).statusCode = 200
    ∧ (handle_batch_summaries demoLk (some ["x", "bad", "y"])).total_requested
        = ((["x", "bad", "y"] : List String).take 50).length
    ∧ (handle_batch_summaries demoLk (some ["x", "bad", "y"])).found
        = ((["x", "bad", "y"] : List String).take 50).countP
            (fun i => isFoundEntry (fetchEntry demoLk i))
    ∧ (handle_batch_summaries demoLk (some ["x", "bad", "y"])).found
        + (handle_batch_summaries demoLk (some ["x", "bad", "y"])).not_found
        = (handle_batch_summaries demoLk
            (some ["x", "bad", "y"])).total_requested
    ∧ (((handle_batch_summaries demoLk
          (some ["x", "bad", "y"])).summaries).map Prod.fst).Nodup
    ∧ (∀ i, i ∈ ((handle_batch_summaries demoLk
          (some ["x", "bad", "y"])).summaries).map Prod.fst
        ↔ i ∈ (["x", "bad", "y"] : List String).take 50)
    ∧ (∀ i ∈ (["x", "bad", "y"] : List String).take 50,
        alookup ((handle_batch_summaries demoLk
          (some ["x", "bad", "y"])).summaries) i
          = some (fetchEntry demoLk i)) :=
  batch_endpoint_partitions demoLk ["x", "bad", "y"] (by decide)

/-! ## Batch summarizer: processing loop and Lambda handler
(`aws-deployment/functions/batch-summarizer/lambda_function.py`,
`lambda_handler` lines 29-102 and `process_articles_batch` lines 104-159)

The Bedrock call of `generate_summary` is an oracle
`resp : BArticle → Option String` (`none` models a raised exception or a
malformed response); the minimum-length validation is explicit.  DynamoDB
write availability is the oracle `writeOk`.  The wall-clock
`processing_time` field is not modelled.
-/

/-- One article of a batch event.  `id = none` models a missing `id`
field (`article.get('id')` returning Python `None`). -/
structure BArticle where
  id : Option String
  title : String
  content : String
  source : String
  category : String
deriving DecidableEq, Repr

/-- Oracles for one batch run: the Bedrock response text per article, the
per-id DynamoDB write availability, and the current time. -/
structure GenEnv where
  resp : BArticle → Option String
  writeOk : String → Bool
  now : ℤ

/-- Embedding of `generate_summary` (lines 183-236): the model response
(or `none` on a raised error), rejected when shorter than 20 characters.
Prompt construction and content truncation only shape the oracle input and
are not observable here. -/
def generate_summary (env : GenEnv) (a : BArticle) : Option String :=
  match env.resp a with
  | none => none
  | some summary => if summary.length < 20 then none else some summary

/-- The `results` dict threaded through `process_articles_batch`. -/
structure BatchResults where
  new_summaries : ℕ
  cached_summaries : ℕ
  errors : List String
deriving DecidableEq, Repr

/-- The all-zero initial `results` value. -/
def zeroResults : BatchResults := ⟨0, 0, []⟩

/-- Loop body of `process_articles_batch` for one article, with its
`continue`-based control flow made explicit.  The surrounding
`try/except` appends an error instead of aborting; in this model the only
fallible calls are the oracles, which are already total. -/
def processOne (env : GenEnv) (a : BArticle) (r : BatchResults)
    (st : Table) : BatchResults × Table :=
  match a.id with
  | none =>
      ({r with errors := r.errors ++ ["Article missing \x27id\x27 field"]}, st)
  | some article_id =>
      if article_id = "" then
        ({r with errors :=
            r.errors ++ ["Article missing \x27id\x27 field"]}, st)
      else
        match get_cached_summary st env.now article_id with
        | some _ => ({r with cached_summaries := r.cached_summaries + 1}, st)
        | none =>
            if a.content = "" then
              ({r with errors := r.errors
                  ++ ["Article " ++ article_id ++ " has no content"]}, st)
            else
              match generate_summary env a with
              | some summary =>
                  ({r with new_summaries := r.new_summaries + 1},
                    cache_summary (env.writeOk article_id) st article_id
                      summary
                      ⟨a.title, a.source, a.category, a.content.length⟩
                      env.now)
              | none =>
                  ({r with errors := r.errors
                      ++ ["Failed to generate summary for article "
                          ++ article_id]}, st)

/-- The `for article in articles` loop, threading `results` and the
table state. -/
def processBatchAux (env : GenEnv) :
    List BArticle → BatchResults → Table → BatchResults × Table
  | [], r, st => (r, st)
  | a :: rest, r, st =>
      let p := processOne env a r st
      processBatchAux env rest p.1 p.2

/-- Embedding of `process_articles_batch` (lines 104-159). -/
def process_articles_batch (env : GenEnv) (articles : List BArticle)
    (st : Table) : BatchResults × Table :=
  processBatchAux env articles zeroResults st

/-- Python list slice `l[:n]`, including the negative-index case
(`l[:-k]` drops the last `k` elements). -/
def pySlice {α : Type} (l : List α) (n : ℤ) : List α :=
  if 0 ≤ n then l.take n.toNat else l.take ((l.length : ℤ) + n).toNat

/-- `MAX_ARTICLES_PER_BATCH`. -/
def MAX_ARTICLES_PER_BATCH : ℤ := 50

/-- Batch event: the articles and the optional `batch_size` field
(`event.get('batch_size', MAX_ARTICLES_PER_BATCH)`, any JSON integer). -/
structure BEvent where
  articles : List BArticle
  batch_size : Option ℤ

/-- Response of the batch summarizer's `lambda_handler`, restricted to
the fields the claims are about. -/
structure BatchHandlerResp where
  statusCode : ℕ
  processed : ℕ
  summaries_generated : ℕ
  cached_summaries : ℕ
  errors : List String
deriving DecidableEq, Repr

/-- The truncation step of `lambda_handler`:
`batch_size = min(event.get('batch_size', 50), 50)` and
`articles = articles[:batch_size] if len(articles) > batch_size`. -/
def truncatedArticles (ev : BEvent) : List BArticle :=
  let batch_size := min (ev.batch_size.getD MAX_ARTICLES_PER_BATCH)
      MAX_ARTICLES_PER_BATCH
  if (ev.articles.length : ℤ) > batch_size then
    pySlice ev.articles batch_size
  else ev.articles

/-- Embedding of the batch summarizer's `lambda_handler` (lines 29-102):
empty article list gives 400; otherwise the list is truncated via
`truncatedArticles` and processed, and the response reports
`processed = len(articles)` over the truncated list. -/
def lambda_handler (env : GenEnv) (ev : BEvent) (st : Table) :
    BatchHandlerResp :=
  if ev.articles = [] then ⟨400, 0, 0, 0, []⟩
  else
    let r := process_articles_batch env (truncatedArticles ev) st
    ⟨200, (truncatedArticles ev).length, r.1.new_summaries,
      r.1.cached_summaries, r.1.errors⟩

/-! ### Loop lemmas for the batch summarizer -/

theorem processOne_counts (env : GenEnv) (a : BArticle) (r : BatchResults)
    (st : Table) :
    (processOne env a r st).1.new_summaries
      + (processOne env a r st).1.cached_summaries
      + (processOne env a r st).1.errors.length
    = r.new_summaries + r.cached_summaries + r.errors.length + 1 := by
  rcases ha : a.id with _ | aid
  · simp [processOne, ha]
    omega
  · by_cases h0 : aid = ""
    · simp [processOne, ha, h0]
      omega
    · rcases hg : get_cached_summary st env.now aid with _ | s
      · by_cases hc : a.content = ""
        · simp [processOne, ha, h0, hg, hc]
          omega
        · rcases hs : generate_summary env a with _ | smry
          · simp [processOne, ha, h0, hg, hc, hs]
            omega
          · simp [processOne, ha, h0, hg, hc, hs]
            ring
      · simp [processOne, ha, h0, hg]
        ring

theorem processBatchAux_counts (env : GenEnv) (articles : List BArticle)
    (r : BatchResults) (st : Table) :
    (processBatchAux env articles r st).1.new_summaries
      + (processBatchAux env articles r st).1.cached_summaries
      + (processBatchAux env articles r st).1.errors.length
    = r.new_summaries + r.cached_summaries + r.errors.length
      + articles.length := by
  induction articles generalizing r st with
  | nil => simp [processBatchAux]
  | cons a rest ih =>
      rw [processBatchAux]
      have h1 := processOne_counts env a r st
      have h2 := ih (processOne env a r st).1 (processOne env a r st).2
      simp only [List.length_cons]
      omega

theorem processOne_acc (env : GenEnv) (a : BArticle) (r : BatchResults)
    (st : Table) :
    processOne env a r st
      = ({ new_summaries := r.new_summaries
            + (processOne env a zeroResults st).1.new_summaries
           cached_summaries := r.cached_summaries
            + (processOne env a zeroResults st).1.cached_summaries
           errors := r.errors
            ++ (processOne env a zeroResults st).1.errors },
         (processOne env a zeroResults st).2) := by
  rcases ha : a.id with _ | aid
  · simp [processOne, ha, zeroResults]
  · by_cases h0 : aid = ""
    · simp [processOne, ha, h0, zeroResults]
    · rcases hg : get_cached_summary st env.now aid with _ | s
      · by_cases hc : a.content = ""
        · simp [processOne, ha, h0, hg, hc, zeroResults]
        · rcases hs : generate_summary env a with _ | smry
          · simp [processOne, ha, h0, hg, hc, hs, zeroResults]
          · simp [processOne, ha, h0, hg, hc, hs, zeroResults]
      · simp [processOne, ha, h0, hg, zeroResults]

theorem processBatchAux_split (env : GenEnv) (articles : List BArticle) :
    ∀ (r : BatchResults) (st : Table),
    (processBatchAux env articles r st).1.new_summaries
        = r.new_summaries
          + (processBatchAux env articles zeroResults st).1.new_summaries
    ∧ (processBatchAux env articles r st).1.cached_summaries
        = r.cached_summaries
          + (processBatchAux env articles zeroResults st).1.cached_summaries
    ∧ (processBatchAux env articles r st).1.errors
        = r.errors ++ (processBatchAux env articles zeroResults st).1.errors
    ∧ (processBatchAux env articles r st).2
        = (processBatchAux env articles zeroResults st).2 := by
  induction articles with
  | nil => intro r st; simp [processBatchAux, zeroResults]
  | cons a rest ih =>
      intro r st
      rw [processBatchAux, processBatchAux]
      rw [processOne_acc env a r st, processOne_acc env a zeroResults st]
      simp only [zeroResults, Nat.zero_add, List.nil_append]
      obtain ⟨i1, i2, i3, i4⟩ := ih
        ({ new_summaries := r.new_summaries
            + (processOne env a ⟨0, 0, []⟩ st).1.new_summaries
           cached_summaries := r.cached_summaries
            + (processOne env a ⟨0, 0, []⟩ st).1.cached_summaries
           errors := r.errors ++ (processOne env a ⟨0, 0, []⟩ st).1.errors })
        ((processOne env a ⟨0, 0, []⟩ st).2)
      obtain ⟨j1, j2, j3, j4⟩ := ih
        ({ new_summaries := (processOne env a ⟨0, 0, []⟩ st).1.new_summaries
           cached_summaries :=
            (processOne env a ⟨0, 0, []⟩ st).1.cached_summaries
           errors := (processOne env a ⟨0, 0, []⟩ st).1.errors })
        ((processOne env a ⟨0, 0, []⟩ st).2)
      refine ⟨?_, ?_, ?_, ?_⟩
      · rw [i1, j1]
        simp [Nat.add_assoc]
      · rw [i2, j2]
        simp [Nat.add_assoc]
      · rw [i3, j3]
        simp [List.append_assoc]
      · rw [i4, j4]

theorem processBatchAux_append (env : GenEnv) (xs ys : List BArticle)
    (r : BatchResults) (st : Table) :
    processBatchAux env (xs ++ ys) r st
      = processBatchAux env ys (processBatchAux env xs r st).1
          (processBatchAux env xs r st).2 := by
  induction xs generalizing r st with
  | nil => simp [processBatchAux]
  | cons a rest ih =>
      rw [List.cons_append, processBatchAux, processBatchAux, ih]

/-- A summarization oracle for concrete runs: article id `"b"` fails
generation, everything else yields a valid long summary; all cache writes
succeed; the clock reads 0. -/
def demoGenEnv : GenEnv :=
  { resp := fun a => if a.id = some "b" then none
      else some "a summary of at least twenty characters"
    writeOk := fun _ => true
    now := 0 }

/-- A concrete batch article with the given id and non-empty content. -/
def bArt (i : String) : BArticle :=
  ⟨some i, "Title", "content", "Src", "AI"⟩

/-- C6.  A failing article (here: generation/validation failure) never
aborts the batch: the run over `xs ++ b :: ys` appends exactly one error
record for `b`, leaves the table untouched by `b`, and processes every
article of `xs` and `ys` to exactly the outcome it would have on its own
(the `ys` segment continues from the same table state). -/
theorem batch_failure_isolated (env : GenEnv) (xs ys : List BArticle)
    (b : BArticle) (st : Table) (bid : String)
    (hid : b.id = some bid) (hne : bid ≠ "") (hc : b.content ≠ "")
    (hg : generate_summary env b = none)
    (hmiss : get_cached_summary (processBatchAux env xs zeroResults st).2
        env.now bid = none) :
    process_articles_batch env (xs ++ b :: ys) st
      = ({ new_summaries :=
            (processBatchAux env xs zeroResults st).1.new_summaries
            + (processBatchAux env ys zeroResults
                (processBatchAux env xs zeroResults st).2).1.new_summaries
           cached_summaries :=
            (processBatchAux env xs zeroResults st).1.cached_summaries
            + (processBatchAux env ys zeroResults
                (processBatchAux env xs zeroResults st).2).1.cached_summaries
           errors :=
            (processBatchAux env xs zeroResults st).1.errors
            ++ ["Failed to generate summary for article " ++ bid]
            ++ (processBatchAux env ys zeroResults
                (processBatchAux env xs zeroResults st).2).1.errors },
         (processBatchAux env ys zeroResults
            (processBatchAux env xs zeroResults st).2).2) := by
  unfold process_articles_batch
  rw [processBatchAux_append, processBatchAux]
  have hb : processOne env b (processBatchAux env xs zeroResults st).1
      (processBatchAux env xs zeroResults st).2
      = ({ (processBatchAux env xs zeroResults st).1 with
            errors := (processBatchAux env xs zeroResults st).1.errors
              ++ ["Failed to generate summary for article " ++ bid] },
         (processBatchAux env xs zeroResults st).2) := by
    simp [processOne, hid, hne, hmiss, hc, hg]
  rw [hb]
  obtain ⟨k1, k2, k3, k4⟩ := processBatchAux_split env ys
    ({ (processBatchAux env xs zeroResults st).1 with
        errors := (processBatchAux env xs zeroResults st).1.errors
          ++ ["Failed to generate summary for article " ++ bid] })
    ((processBatchAux env xs zeroResults st).2)
  refine Prod.ext ?_ k4
  calc (processBatchAux env ys
        ({ (processBatchAux env xs zeroResults st).1 with
            errors := (processBatchAux env xs zeroResults st).1.errors
              ++ ["Failed to generate summary for article " ++ bid] })
        ((processBatchAux env xs zeroResults st).2)).1
      = { new_summaries := (processBatchAux env ys
            ({ (processBatchAux env xs zeroResults st).1 with
                errors := (processBatchAux env xs zeroResults st).1.errors
                  ++ ["Failed to generate summary for article " ++ bid] })
            ((processBatchAux env xs zeroResults st).2)).1.new_summaries
          cached_summaries := (processBatchAux env ys
            ({ (processBatchAux env xs zeroResults st).1 with
                errors := (processBatchAux env xs zeroResults st).1.errors
                  ++ ["Failed to generate summary for article " ++ bid] })
            ((processBatchAux env xs zeroResults st).2)).1.cached_summaries
          errors := (processBatchAux env ys
            ({ (processBatchAux env xs zeroResults st).1 with
                errors := (processBatchAux env xs zeroResults st).1.errors
                  ++ ["Failed to generate summary for article " ++ bid] })
            ((processBatchAux env xs zeroResults st).2)).1.errors } := rfl
    _ = _ := by
          rw [k1, k2, k3]

/-- Closed instance of `batch_failure_isolated`: in the batch
`[x, b, y]` under `demoGenEnv`, article `b` fails generation, `x` and `y`
are still processed to their own outcomes. -/
theorem batch_failure_isolated_witness :
    process_articles_batch demoGenEnv ([bArt "x"] ++ bArt "b" :: [bArt "y"])
        []
      = ({ new_summaries :=
            (processBatchAux demoGenEnv [bArt "x"] zeroResults
              []).1.new_summaries
            + (processBatchAux demoGenEnv [bArt "y"] zeroResults
                (processBatchAux demoGenEnv [bArt "x"] zeroResults
                  []).2).1.new_summaries
           cached_summaries :=
            (processBatchAux demoGenEnv [bArt "x"] zeroResults
              []).1.cached_summaries
            + (processBatchAux demoGenEnv [bArt "y"] zeroResults
                (processBatchAux demoGenEnv [bArt "x"] zeroResults
                  []).2).1.cached_summaries
           errors :=
            (processBatchAux demoGenEnv [bArt "x"] zeroResults []).1.errors
            ++ ["Failed to generate summary for article " ++ "b"]
            ++ (processBatchAux demoGenEnv [bArt "y"] zeroResults
                (processBatchAux demoGenEnv [bArt "x"] zeroResults
                  []).2).1.errors },
         (processBatchAux demoGenEnv [bArt "y"] zeroResults
            (processBatchAux demoGenEnv [bArt "x"] zeroResults []).2).2) :=
  batch_failure_isolated demoGenEnv [bArt "x"] [bArt "y"] (bArt "b") []
    "b" (by decide) (by decide) (by decide) (by decide) (by decide)

/-- A 52-article event whose `batch_size` field is the JSON integer -1. -/
def negEvent : BEvent :=
  ⟨List.replicate 52 (bArt "i"), some (-1)⟩

/-- C9, counterexample.  The claim says the reported processed count never
exceeds 50; but `batch_size = -1` makes `min(batch_size, 50) = -1`, and
the Python slice `articles[:-1]` of a 52-article list retains 51 articles,
so the handler reports `processed = 51 > 50`. -/
theorem batch_cap_counterexample :
    negEvent.batch_size = some (-1)
    ∧ negEvent.articles.length = 52
    ∧ (lambda_handler demoGenEnv negEvent []).processed = 51
    ∧ 50 < (lambda_handler demoGenEnv negEvent []).processed := by
  refine ⟨rfl, by decide, ?_, ?_⟩ <;>
    simp [lambda_handler, negEvent, truncatedArticles, pySlice,
      MAX_ARTICLES_PER_BATCH, bArt]

/-- C9, amended.  Each article of a processed batch contributes exactly
one outcome (`cached + new + errors = processed`); and provided the
event's `batch_size` is nonnegative (or absent), the processed count is
at most 50.  (A negative `batch_size` slices from the end of the list and
can retain up to `len - 1` articles, see the counterexample.) -/
theorem batch_counts_partition (env : GenEnv) (ev : BEvent) (st : Table)
    (hne : ev.articles ≠ [])
    (hbs : 0 ≤ ev.batch_size.getD MAX_ARTICLES_PER_BATCH) :
    (lambda_handler env ev st).statusCode = 200
    ∧ (lambda_handler env ev st).cached_summaries
        + (lambda_handler env ev st).summaries_generated
        + (lambda_handler env ev st).errors.length
      = (lambda_handler env ev st).processed
    ∧ (lambda_handler env ev st).processed ≤ 50 := by
  have hlen : (truncatedArticles ev).length ≤ 50 := by
    unfold truncatedArticles
    set bs : ℤ := min (ev.batch_size.getD MAX_ARTICLES_PER_BATCH)
      MAX_ARTICLES_PER_BATCH with hbsdef
    have hbs0 : 0 ≤ bs := le_min hbs (by norm_num [MAX_ARTICLES_PER_BATCH])
    have hbs50 : bs ≤ 50 := by
      have := min_le_right (ev.batch_size.getD MAX_ARTICLES_PER_BATCH)
        MAX_ARTICLES_PER_BATCH
      simp only [hbsdef, MAX_ARTICLES_PER_BATCH] at this ⊢
      exact this
    by_cases hgt : (ev.articles.length : ℤ) > bs
    · rw [if_pos hgt]
      unfold pySlice
      rw [if_pos hbs0]
      have := List.length_take_le bs.toNat ev.articles
      have h2 : (bs.toNat : ℤ) = bs := Int.toNat_of_nonneg hbs0
      have h3 : (ev.articles.take bs.toNat).length ≤ bs.toNat :=
        List.length_take_le _ _
      omega
    · rw [if_neg hgt]
      omega
  have hc2 : (process_articles_batch env (truncatedArticles ev)
        st).1.new_summaries
      + (process_articles_batch env (truncatedArticles ev)
          st).1.cached_summaries
      + (process_articles_batch env (truncatedArticles ev)
          st).1.errors.length
      = (truncatedArticles ev).length := by
    show (processBatchAux env (truncatedArticles ev) ⟨0, 0, []⟩
          st).1.new_summaries
        + (processBatchAux env (truncatedArticles ev) ⟨0, 0, []⟩
            st).1.cached_summaries
        + (processBatchAux env (truncatedArticles ev) ⟨0, 0, []⟩
            st).1.errors.length
        = (truncatedArticles ev).length
    simpa using processBatchAux_counts env (truncatedArticles ev)
      ⟨0, 0, []⟩ st
  unfold lambda_handler
  rw [if_neg hne]
  refine ⟨rfl, ?_, hlen⟩
  show (process_articles_batch env (truncatedArticles ev)
        st).1.cached_summaries
      + (process_articles_batch env (truncatedArticles ev)
          st).1.new_summaries
      + (process_articles_batch env (truncatedArticles ev)
          st).1.errors.length
      = (truncatedArticles ev).length
  omega

/-- Closed instance of `batch_counts_partition`: a two-article event with
no `batch_size` field. -/
theorem batch_counts_partition_witness :
    (lambda_handler demoGenEnv ⟨[bArt "x", bArt "b"], none⟩ []).statusCode
        = 200
    ∧ (lambda_handler demoGenEnv ⟨[bArt "x", bArt "b"], none⟩
          []).cached_summaries
        + (lambda_handler demoGenEnv ⟨[bArt "x", bArt "b"], none⟩
            []).summaries_generated
        + (lambda_handler demoGenEnv ⟨[bArt "x", bArt "b"], none⟩
            []).errors.length
      = (lambda_handler demoGenEnv ⟨[bArt "x", bArt "b"], none⟩ []).processed
    ∧ (lambda_handler demoGenEnv ⟨[bArt "x", bArt "b"], none⟩ []).processed
        ≤ 50 :=
  batch_counts_partition demoGenEnv ⟨[bArt "x", bArt "b"], none⟩ []
    (by decide) (by decide)

/-! ## tech_industry_recap.py: keyword tables, classifier, scorer -/

/-- `self.ai_keywords`. -/
def ai_keywords : List String :=
  ["ai", "artificial intelligence", "openai", "gpt", "claude", "llm",
   "machine learning", "neural", "chatbot", "generative"]

/-- `self.crypto_keywords`. -/
def crypto_keywords : List String :=
  ["crypto", "bitcoin", "ethereum", "blockchain", "defi", "nft", "web3"]

/-- `self.startup_keywords`. -/
def startup_keywords : List String :=
  ["funding", "startup", "venture", "series a", "series b", "ipo",
   "acquisition", "merger"]

/-- `self.big_tech_keywords`. -/
def big_tech_keywords : List String :=
  ["apple", "google", "microsoft", "amazon", "meta", "tesla", "nvidia"]

/-- `self.security_keywords`. -/
def security_keywords : List String :=
  ["security", "hack", "breach", "vulnerability", "cyber", "privacy"]

/-- `self.major_story_keywords`. -/
def major_story_keywords : List String :=
  ["released", "launches", "announces", "breakthrough", "revolutionary",
   "first", "major"]

/-- An article as fetched by `tech_industry_recap.py`, restricted to the
fields the classifier and scorer read (`title`, `description`,
`source_weight`, `published`); `url`, `content`, `source`, `author` do not
影 none of the claims.  `published` is seconds, `source_weight` an exact
rational. -/
structure TArticle where
  title : String
  description : String
  source_weight : ℚ
  published : ℤ

/-- The classification text: `(article['title'] + ' ' +
article['description']).lower()`. -/
def articleText (a : TArticle) : Text :=
  lowerT (a.title ++ " " ++ a.description)

/-- Embedding of `categorize_article` (tech_industry_recap.py, lines
114-129): first matching keyword class wins, else `'General Tech'`. -/
def categorize_article (a : TArticle) : String :=
  let text := articleText a
  if anyKeyIn ai_keywords text then "AI & Machine Learning"
  else if anyKeyIn crypto_keywords text then "Crypto & Web3"
  else if anyKeyIn startup_keywords text then "Startups & Funding"
  else if anyKeyIn big_tech_keywords text then "Big Tech"
  else if anyKeyIn security_keywords text then "Cybersecurity"
  else "General Tech"

/-- Embedding of `calculate_importance_score` (tech_industry_recap.py,
lines 131-161).  Note the `for keyword in self.major_story_keywords`
loop adds 0.3 once per matching keyword, not once per class; the AI,
big-tech and startup bonuses are added at most once each; the recency
bonuses are mutually exclusive (`if/elif`).  `hours_old` is
`(now - published) / 3600` as an exact rational. -/
def calculate_importance_score (a : TArticle) (now : ℤ) : ℚ :=
  let score0 : ℚ := a.source_weight
  let text := articleText a
  let score1 := major_story_keywords.foldl
    (fun s kw => if occursIn kw.toList text then s + 0.3 else s) score0
  let score2 := if anyKeyIn ai_keywords text then score1 + 0.5 else score1
  let score3 := if anyKeyIn big_tech_keywords text then score2 + 0.2
    else score2
  let score4 := if anyKeyIn startup_keywords text then score3 + 0.3
    else score3
  let hours_old : ℚ := ((now - a.published : ℤ) : ℚ) / 3600
  if hours_old < 24 then score4 + 0.2
  else if hours_old < 72 then score4 + 0.1
  else score4

/-- The score formula exactly as claim C5 words it (for refutation):
source reliability weight plus a fixed bonus per matching keyword class,
each class contributing at most once — +0.5 for AI keywords, +0.3 for a
major-story keyword, +0.2 under 24 hours, +0.1 under 72 hours. -/
def claimScoreC5 (a : TArticle) (now : ℤ) : ℚ :=
  a.source_weight
  + (if anyKeyIn ai_keywords (articleText a) then 0.5 else 0)
  + (if anyKeyIn major_story_keywords (articleText a) then 0.3 else 0)
  + (if ((now - a.published : ℤ) : ℚ) / 3600 < 24 then 0.2 else 0)
  + (if ((now - a.published : ℤ) : ℚ) / 3600 < 72 then 0.1 else 0)

/-! ## industry_weekly_recap.py: bucketed categorization -/

/-- An article as fetched by `industry_weekly_recap.py`, restricted to
the fields its classifier reads. -/
structure WArticle where
  title : String
  content : String

/-- The `keywords` dict of `categorize_articles`
(industry_weekly_recap.py, lines 116-123), in insertion order; note the
`products` bucket has no keyword entry and is never matched. -/
def weekly_keywords : List (String × List String) :=
  [("ai_llm", ["ai", "artificial intelligence", "llm", "gpt", "claude",
      "openai", "anthropic", "machine learning", "neural", "model"]),
   ("funding_ipo", ["funding", "raised", "million", "billion",
      "investment", "ipo", "acquisition", "valuation", "series"]),
   ("big_tech", ["apple", "google", "microsoft", "amazon", "meta",
      "tesla", "nvidia", "alphabet"]),
   ("security", ["security", "hack", "breach", "vulnerability", "cyber",
      "malware", "privacy"]),
   ("regulation", ["regulation", "government", "policy", "law",
      "compliance", "antitrust", "senate"]),
   ("startups", ["startup", "founder", "launch", "debut", "new company"])]

/-- The classification text of `categorize_articles`:
`(article['title'] + ' ' + article['content']).lower()`. -/
def wText (w : WArticle) : Text := lowerT (w.title ++ " " ++ w.content)

/-- Per-article decision of the `categorize_articles` loop
(industry_weekly_recap.py, lines 125-137): the first bucket whose keyword
list matches (`break`), else `'other'`. -/
def assignBucket (w : WArticle) : String :=
  match weekly_keywords.find? (fun p => anyKeyIn p.2 (wText w)) with
  | some p => p.1
  | none => "other"

/-- Embedding of `categorize_articles` (industry_weekly_recap.py, lines
101-139): every bucket collects, in input order, exactly the articles the
loop appends to it (each article goes to the bucket `assignBucket`
picks). -/
def categorize_articles (arts : List WArticle) : List (String × List WArticle) :=
  ["ai_llm", "funding_ipo", "big_tech", "startups", "security",
   "regulation", "products", "other"].map
    (fun c => (c, arts.filter (fun a => assignBucket a = c)))

/-! ## Claim C5: the importance score -/

theorem foldl_score (text : Text) (kws : List String) (s : ℚ) :
    kws.foldl (fun s kw => if occursIn kw.toList text then s + 0.3 else s) s
      = s + 0.3 * (kws.countP (fun kw => occursIn kw.toList text) : ℚ) := by
  induction kws generalizing s with
  | nil => simp
  | cons k rest ih =>
      rw [List.foldl_cons, List.countP_cons]
      by_cases h : occursIn k.toList text
      · rw [if_pos h, ih, if_pos h]
        push_cast
        ring
      · rw [if_neg h, ih, if_neg h]
        push_cast
        ring

/-- C5, amended.  The importance score equals the source reliability
weight, plus 0.3 for EVERY matching major-story keyword (the loop adds
the bonus once per keyword, not once per class), plus at most one each of
+0.5 (AI keywords), +0.2 (big-tech keywords), +0.3 (startup keywords),
plus a mutually exclusive recency bonus of +0.2 (under 24h) or else +0.1
(under 72h). -/
theorem importance_score_closed_form (a : TArticle) (now : ℤ) :
    calculate_importance_score a now
      = a.source_weight
        + 0.3 * (major_story_keywords.countP
            (fun kw => occursIn kw.toList (articleText a)) : ℚ)
        + (if anyKeyIn ai_keywords (articleText a) then 0.5 else 0)
        + (if anyKeyIn big_tech_keywords (articleText a) then 0.2 else 0)
        + (if anyKeyIn startup_keywords (articleText a) then 0.3 else 0)
        + (if ((now - a.published : ℤ) : ℚ) / 3600 < 24 then 0.2
           else if ((now - a.published : ℤ) : ℚ) / 3600 < 72 then 0.1
           else 0) := by
  unfold calculate_importance_score
  simp only []
  rw [foldl_score]
  split_ifs <;> ring

/-- The C5 counterexample article: title `"Announces breakthrough"`
matches two major-story keywords and nothing else; weight 1; published
400 hours before the evaluation time. -/
def cArticleC5 : TArticle := ⟨"Announces breakthrough", "", 1, 0⟩

/-- C5, counterexample.  On `cArticleC5` at `now = 400 * 3600` the code
scores `1 + 0.3 + 0.3 = 1.6` (one +0.3 per matching major-story keyword),
while the claim's formula (each keyword class at most once) gives `1.3`. -/
theorem score_per_keyword_counterexample :
    calculate_importance_score cArticleC5 (400 * 3600) = 1.6
    ∧ claimScoreC5 cArticleC5 (400 * 3600) = 1.3
    ∧ calculate_importance_score cArticleC5 (400 * 3600)
        ≠ claimScoreC5 cArticleC5 (400 * 3600) := by
  have hcount : (major_story_keywords.countP
      (fun kw => occursIn kw.toList (articleText cArticleC5))) = 2 := by
    decide
  have hai : anyKeyIn ai_keywords (articleText cArticleC5) = false := by
    decide
  have hbt : anyKeyIn big_tech_keywords (articleText cArticleC5)
      = false := by decide
  have hsu : anyKeyIn startup_keywords (articleText cArticleC5)
      = false := by decide
  have hms : anyKeyIn major_story_keywords (articleText cArticleC5)
      = true := by decide
  have hpub : cArticleC5.published = 0 := rfl
  have hw : cArticleC5.source_weight = 1 := rfl
  have hhours : ((400 * 3600 - cArticleC5.published : ℤ) : ℚ) / 3600
      = 400 := by
    rw [hpub]
    norm_num
  have h24 : ¬ ((400 * 3600 - cArticleC5.published : ℤ) : ℚ) / 3600
      < 24 := by
    rw [hhours]
    norm_num
  have h72 : ¬ ((400 * 3600 - cArticleC5.published : ℤ) : ℚ) / 3600
      < 72 := by
    rw [hhours]
    norm_num
  have hcode : calculate_importance_score cArticleC5 (400 * 3600)
      = 1.6 := by
    unfold calculate_importance_score
    simp only []
    rw [foldl_score, hcount, hai, hbt, hsu]
    simp only [if_false, Bool.false_eq_true]
    rw [if_neg h24, if_neg h72, hw]
    norm_num
  have hclaim : claimScoreC5 cArticleC5 (400 * 3600) = 1.3 := by
    unfold claimScoreC5
    rw [hai, hms, hw, if_neg h24, if_neg h72]
    norm_num
  refine ⟨hcode, hclaim, ?_⟩
  rw [hcode, hclaim]
  norm_num

/-! ## enhanced_tech_recap.py: trend analysis and headline selection -/

/-- `ai_companies` (enhanced_tech_recap.py, line 70). -/
def ai_companies : List String :=
  ["openai", "anthropic", "google", "microsoft", "nvidia", "meta"]

/-- `ai_terms` (line 71). -/
def ai_terms : List String :=
  ["gpt", "claude", "gemini", "llm", "artificial intelligence",
   "machine learning", "ai model"]

/-- Security keyword list of `analyze_article_trends` (line 98). -/
def security_terms : List String :=
  ["hack", "security", "breach", "vulnerability", "cyber"]

/-- Startup/funding keyword list (line 104). -/
def funding_terms : List String :=
  ["funding", "raises", "series", "investment", "venture"]

/-- Big-tech keyword list (line 110). -/
def big_tech_terms : List String :=
  ["apple", "google", "microsoft", "amazon", "meta", "tesla"]

/-- Breakthrough/major-announcement keyword list (line 116); it boosts
importance but appends NO category label. -/
def breakthrough_terms : List String :=
  ["launches", "announces", "reveals", "breakthrough", "first"]

/-- Regulatory/policy keyword list (line 121). -/
def regulatory_terms : List String :=
  ["regulation", "policy", "government", "congress", "eu"]

/-- An article as analyzed by `enhanced_tech_recap.py`, restricted to the
fields `analyze_article_trends` reads. -/
structure EArticle where
  title : String
  description : String
  published : ℤ

/-- The analysis text: `(article['title'] + ' ' +
article['description']).lower()`. -/
def eText (a : EArticle) : Text := lowerT (a.title ++ " " ++ a.description)

/-- The `categories` list `analyze_article_trends` attaches to an article
(lines 89-126), in loop order; when no keyword matches it stays EMPTY —
there is no fallback label in this script. -/
def trendCategories (a : EArticle) : List String :=
  (if anyKeyIn (ai_terms ++ ai_companies) (eText a) then ["AI"] else [])
  ++ (if anyKeyIn security_terms (eText a) then ["Security"] else [])
  ++ (if anyKeyIn funding_terms (eText a) then ["Funding"] else [])
  ++ (if anyKeyIn big_tech_terms (eText a) then ["Big Tech"] else [])
  ++ (if anyKeyIn regulatory_terms (eText a) then ["Regulatory"] else [])

/-- The `importance` score `analyze_article_trends` attaches to an
article (lines 88-124): sequential `importance +=` bonuses of 2, 1.5, 1,
1.5, 1, 1 for the six keyword checks. -/
def trendImportance (a : EArticle) : ℚ :=
  let i0 : ℚ := 0
  let i1 := if anyKeyIn (ai_terms ++ ai_companies) (eText a) then i0 + 2
    else i0
  let i2 := if anyKeyIn security_terms (eText a) then i1 + 1.5 else i1
  let i3 := if anyKeyIn funding_terms (eText a) then i2 + 1 else i2
  let i4 := if anyKeyIn big_tech_terms (eText a) then i3 + 1.5 else i3
  let i5 := if anyKeyIn breakthrough_terms (eText a) then i4 + 1 else i4
  if anyKeyIn regulatory_terms (eText a) then i5 + 1 else i5

/-- The descending sort order of `major_stories.sort(key=lambda x:
(x['importance'], x['published']), reverse=True)`: `a` sorts no later
than `b` when `a`'s key pair is lexicographically at least `b`'s. -/
def trendLe (a b : EArticle) : Prop :=
  trendImportance b < trendImportance a
  ∨ (trendImportance b = trendImportance a ∧ b.published ≤ a.published)

instance trendLeDec : DecidableRel trendLe := fun a b => by
  unfold trendLe
  exact inferInstance

instance trendLeTotal : IsTotal EArticle trendLe where
  total a b := by
    unfold trendLe
    rcases lt_trichotomy (trendImportance a) (trendImportance b) with
      h | h | h
    · exact Or.inr (Or.inl h)
    · rcases le_total b.published a.published with hp | hp
      · exact Or.inl (Or.inr ⟨h.symm, hp⟩)
      · exact Or.inr (Or.inr ⟨h, hp⟩)
    · exact Or.inl (Or.inl h)

instance trendLeTrans : IsTrans EArticle trendLe where
  trans a b c hab hbc := by
    unfold trendLe at hab hbc ⊢
    rcases hab with h1 | ⟨h1, p1⟩
    · rcases hbc with h2 | ⟨h2, p2⟩
      · exact Or.inl (h2.trans h1)
      · exact Or.inl (h2 ▸ h1)
    · rcases hbc with h2 | ⟨h2, p2⟩
      · exact Or.inl (h1 ▸ h2)
      · exact Or.inr ⟨h2.trans h1, p2.trans p1⟩

/-- `major_stories` of `analyze_article_trends` (lines 129-138): articles
with importance ≥ 2, stably sorted descending by (importance, published),
truncated to 10. -/
def major_stories (arts : List EArticle) : List EArticle :=
  (List.insertionSort trendLe
    (arts.filter (fun a => 2 ≤ trendImportance a))).take 10

/-- The headline pick of `create_realistic_industry_recap` (line 158):
`major_stories[0] if major_stories else None`. -/
def biggest_story (arts : List EArticle) : Option EArticle :=
  (major_stories arts).head?

/-! ## Claim C3: classifier fallbacks -/

/-- No keyword class of `categorize_article` matches. -/
def noMatchT (a : TArticle) : Prop :=
  anyKeyIn ai_keywords (articleText a) = false
  ∧ anyKeyIn crypto_keywords (articleText a) = false
  ∧ anyKeyIn startup_keywords (articleText a) = false
  ∧ anyKeyIn big_tech_keywords (articleText a) = false
  ∧ anyKeyIn security_keywords (articleText a) = false

/-- No keyword bucket of `categorize_articles` matches. -/
def noMatchW (w : WArticle) : Prop :=
  ∀ p ∈ weekly_keywords, anyKeyIn p.2 (wText w) = false

/-- No category keyword of `analyze_article_trends` matches. -/
def noMatchE (e : EArticle) : Prop :=
  anyKeyIn (ai_terms ++ ai_companies) (eText e) = false
  ∧ anyKeyIn security_terms (eText e) = false
  ∧ anyKeyIn funding_terms (eText e) = false
  ∧ anyKeyIn big_tech_terms (eText e) = false
  ∧ anyKeyIn regulatory_terms (eText e) = false

/-- C3, counterexample.  `analyze_article_trends` has no fallback
category: on blank text (and on text matching no keyword) the attached
`categories` list is empty, so this classifier can leave an article
uncategorized, contradicting the claim that every input gets a non-empty
category set. -/
theorem classifier_empty_counterexample :
    trendCategories ⟨"", "", 0⟩ = []
    ∧ trendCategories ⟨"zzz", "zzz", 0⟩ = [] := by
  constructor <;> decide

/-- C3, amended.  `categorize_article` (tech_industry_recap.py) always
returns one of its six labels, falling back to `'General Tech'` when no
keyword matches, and the `categorize_articles` bucket assignment
(industry_weekly_recap.py) always lands in one of its seven buckets,
falling back to `'other'`; but `analyze_article_trends`
(enhanced_tech_recap.py) attaches the EMPTY category list whenever none
of its keywords match. -/
theorem classifier_fallbacks (a : TArticle) (w : WArticle) (e : EArticle) :
    categorize_article a ∈ ["AI & Machine Learning", "Crypto & Web3",
      "Startups & Funding", "Big Tech", "Cybersecurity", "General Tech"]
    ∧ (noMatchT a → categorize_article a = "General Tech")
    ∧ assignBucket w ∈ ["ai_llm", "funding_ipo", "big_tech", "security",
      "regulation", "startups", "other"]
    ∧ (noMatchW w → assignBucket w = "other")
    ∧ (noMatchE e → trendCategories e = []) := by
  refine ⟨?_, ?_, ?_, ?_, ?_⟩
  · unfold categorize_article
    simp only []
    split_ifs <;> simp
  · rintro ⟨n1, n2, n3, n4, n5⟩
    simp [categorize_article, n1, n2, n3, n4, n5]
  · unfold assignBucket
    cases hf : weekly_keywords.find? (fun p => anyKeyIn p.2 (wText w)) with
    | none => simp
    | some p =>
        have hp : p ∈ weekly_keywords := List.mem_of_find?_eq_some hf
        fin_cases hp <;> simp
  · intro hw
    unfold assignBucket
    have hnone : weekly_keywords.find?
        (fun p => anyKeyIn p.2 (wText w)) = none := by
      apply List.find?_eq_none.mpr
      intro p hp
      simp [hw p hp]
    rw [hnone]
  · rintro ⟨n1, n2, n3, n4, n5⟩
    simp [trendCategories, n1, n2, n3, n4, n5]

/-- Closed instance of `classifier_fallbacks`: blank inputs hit the
`'General Tech'` and `'other'` fallbacks, and the empty trend category
list. -/
theorem classifier_fallbacks_witness :
    categorize_article ⟨"", "", 1, 0⟩ = "General Tech"
    ∧ assignBucket ⟨"", ""⟩ = "other"
    ∧ trendCategories ⟨"", "", 0⟩ = [] := by
  have h := classifier_fallbacks ⟨"", "", 1, 0⟩ ⟨"", ""⟩ ⟨"", "", 0⟩
  refine ⟨h.2.1 ⟨by decide, by decide, by decide, by decide, by decide⟩,
    h.2.2.2.1 ?_,
    h.2.2.2.2 ⟨by decide, by decide, by decide, by decide, by decide⟩⟩
  intro p hp
  fin_cases hp <;> decide

/-! ## Claim C4: headline selection -/

/-- C4, amended.  When at least one analyzed article reaches the
major-story threshold (importance ≥ 2), the selected headline is an
article of maximal importance among ALL analyzed articles, and among the
equally-important ones it has the most recent publication timestamp.
(When no article reaches the threshold, `major_stories` is empty and no
headline is selected, see the counterexample.) -/
theorem headline_is_max (arts : List EArticle)
    (h : ∃ a ∈ arts, 2 ≤ trendImportance a) :
    ∃ hl, biggest_story arts = some hl ∧ hl ∈ arts
      ∧ (∀ a ∈ arts, trendImportance a ≤ trendImportance hl)
      ∧ (∀ a ∈ arts, trendImportance a = trendImportance hl →
          a.published ≤ hl.published) := by
  obtain ⟨a0, ha0, himp⟩ := h
  have hmem : a0 ∈ arts.filter (fun a => 2 ≤ trendImportance a) :=
    List.mem_filter.mpr ⟨ha0, by simpa using himp⟩
  have hperm := List.perm_insertionSort trendLe
    (arts.filter (fun a => 2 ≤ trendImportance a))
  have hsorted := List.sorted_insertionSort trendLe
    (arts.filter (fun a => 2 ≤ trendImportance a))
  have hsne : List.insertionSort trendLe
      (arts.filter (fun a => 2 ≤ trendImportance a)) ≠ [] := by
    intro hcon
    rw [hcon] at hperm
    have hnil := hperm.symm.eq_nil
    rw [hnil] at hmem
    exact absurd hmem (List.not_mem_nil a0)
  obtain ⟨hl, tl, hcons⟩ := List.exists_cons_of_ne_nil hsne
  have hlfl : hl ∈ arts.filter (fun a => 2 ≤ trendImportance a) := by
    refine hperm.subset ?_
    rw [hcons]
    exact List.mem_cons_self hl tl
  have hlarts : hl ∈ arts := (List.mem_filter.mp hlfl).1
  have hl2 : 2 ≤ trendImportance hl := by
    have := (List.mem_filter.mp hlfl).2
    simpa using this
  have hmax : ∀ b ∈ arts.filter (fun a => 2 ≤ trendImportance a),
      b = hl ∨ trendLe hl b := by
    intro b hb
    have hbs : b ∈ hl :: tl := by
      rw [← hcons]
      exact hperm.mem_iff.mpr hb
    rcases List.mem_cons.mp hbs with h' | h'
    · exact Or.inl h'
    · have hs2 : List.Sorted trendLe (hl :: tl) := hcons ▸ hsorted
      exact Or.inr (List.rel_of_sorted_cons hs2 b h')
  have hhead : biggest_story arts = some hl := by
    unfold biggest_story major_stories
    rw [hcons]
    rfl
  refine ⟨hl, hhead, hlarts, ?_, ?_⟩
  · intro a ha
    by_cases h2 : 2 ≤ trendImportance a
    · have haf : a ∈ arts.filter (fun a => 2 ≤ trendImportance a) :=
        List.mem_filter.mpr ⟨ha, by simpa using h2⟩
      rcases hmax a haf with rfl | hr
      · exact le_refl _
      · rcases hr with hlt | ⟨heq, _⟩
        · exact hlt.le
        · exact heq.le
    · have hlt : trendImportance a < 2 := not_le.mp h2
      exact hlt.le.trans hl2
  · intro a ha heq
    by_cases h2 : 2 ≤ trendImportance a
    · have haf : a ∈ arts.filter (fun a => 2 ≤ trendImportance a) :=
        List.mem_filter.mpr ⟨ha, by simpa using h2⟩
      rcases hmax a haf with rfl | hr
      · exact le_refl _
      · rcases hr with hlt | ⟨_, hp⟩
        · exact absurd heq (ne_of_lt hlt)
        · exact hp
    · rw [← heq] at hl2
      exact absurd hl2 h2

/-- The demo AI article: importance exactly 2 via the `openai` keyword. -/
def demoE : EArticle := ⟨"OpenAI releases new model", "", 0⟩

theorem trendImportance_demoE : trendImportance demoE = 2 := by
  have c1 : anyKeyIn (ai_terms ++ ai_companies) (eText demoE) = true := by
    decide
  have c2 : anyKeyIn security_terms (eText demoE) = false := by decide
  have c3 : anyKeyIn funding_terms (eText demoE) = false := by decide
  have c4 : anyKeyIn big_tech_terms (eText demoE) = false := by decide
  have c5 : anyKeyIn breakthrough_terms (eText demoE) = false := by decide
  have c6 : anyKeyIn regulatory_terms (eText demoE) = false := by decide
  simp [trendImportance, c1, c2, c3, c4, c5, c6]

/-- Closed instance of `headline_is_max` on the singleton `[demoE]`. -/
theorem headline_is_max_witness :
    (∃ a ∈ [demoE], 2 ≤ trendImportance a)
    ∧ ∃ hl, biggest_story [demoE] = some hl ∧ hl ∈ [demoE]
      ∧ (∀ a ∈ [demoE], trendImportance a ≤ trendImportance hl)
      ∧ (∀ a ∈ [demoE], trendImportance a = trendImportance hl →
          a.published ≤ hl.published) := by
  have hyp : ∃ a ∈ [demoE], 2 ≤ trendImportance a :=
    ⟨demoE, by simp, by rw [trendImportance_demoE]⟩
  exact ⟨hyp, headline_is_max [demoE] hyp⟩

/-- C4, counterexample.  The claim says every non-empty article set gets
a maximal-score headline; but an article below the importance threshold 2
leaves `major_stories` empty and no headline is selected at all. -/
theorem headline_none_counterexample :
    ([(⟨"", "", 0⟩ : EArticle)] ≠ [])
    ∧ biggest_story [⟨"", "", 0⟩] = none := by
  constructor
  · simp
  · have c1 : anyKeyIn (ai_terms ++ ai_companies)
        (eText ⟨"", "", 0⟩) = false := by decide
    have c2 : anyKeyIn security_terms (eText ⟨"", "", 0⟩) = false := by
      decide
    have c3 : anyKeyIn funding_terms (eText ⟨"", "", 0⟩) = false := by
      decide
    have c4 : anyKeyIn big_tech_terms (eText ⟨"", "", 0⟩) = false := by
      decide
    have c5 : anyKeyIn breakthrough_terms (eText ⟨"", "", 0⟩) = false := by
      decide
    have c6 : anyKeyIn regulatory_terms (eText ⟨"", "", 0⟩) = false := by
      decide
    have h0 : trendImportance ⟨"", "", 0⟩ = 0 := by
      simp [trendImportance, c1, c2, c3, c4, c5, c6]
    have hn : ¬ (2 ≤ trendImportance ⟨"", "", 0⟩) := by
      rw [h0]
      norm_num
    have hfilter : [(⟨"", "", 0⟩ : EArticle)].filter
        (fun a => 2 ≤ trendImportance a) = [] := by
      simp [List.filter_cons, decide_eq_false hn]
    unfold biggest_story major_stories
    rw [hfilter]
    rfl

/-! ## tech_industry_recap.py: feed fetching (claim C8)

`feedparser.parse` (the network fetch and feed parse) is the fallible
step the `try/except` of `fetch_past_week_articles` guards; we model it
as an oracle `parse : Source → Except Unit (List FeedEntry)`.
-/

/-- One `{name, url, weight}` source descriptor of `self.sources`. -/
structure Source where
  name : String
  url : String
  weight : ℚ

/-- One parsed feed entry, restricted to the fields the fetch loop reads
(HTML stripping of `extract_content` is not observable in the claims). -/
structure FeedEntry where
  title : String
  link : String
  description : String
  published_parsed : Option ℤ
  updated_parsed : Option ℤ
  author : String

/-- Publication date resolution (lines 55-60): `published_parsed`, else
`updated_parsed`, else none. -/
def entryPubDate (e : FeedEntry) : Option ℤ :=
  match e.published_parsed with
  | some d => some d
  | none => e.updated_parsed

/-- The per-entry body of the fetch loop (lines 54-80): keep entries with
a resolvable date within the past 7 days, projected to the fields the
classifier/scorer read. -/
def processSourceEntries (now : ℤ) (src : Source)
    (entries : List FeedEntry) : List TArticle :=
  entries.filterMap (fun e =>
    match entryPubDate e with
    | some pub =>
        if now - 7 * 86400 ≤ pub then
          some ⟨e.title, e.description, src.weight, pub⟩
        else none
    | none => none)

/-- The oracles of one fetch run: the feed download/parse result per
source and the current time. -/
structure FetchEnv where
  parse : Source → Except Unit (List FeedEntry)
  now : ℤ

/-- The final sort of `fetch_past_week_articles` (line 89), descending by
the `(importance_score, published)` key pair. -/
def fetchLe (now : ℤ) (a b : TArticle) : Prop :=
  calculate_importance_score b now < calculate_importance_score a now
  ∨ (calculate_importance_score b now = calculate_importance_score a now
      ∧ b.published ≤ a.published)

instance fetchLeDec (now : ℤ) : DecidableRel (fetchLe now) := fun a b => by
  unfold fetchLe
  exact inferInstance

/-- Embedding of `fetch_past_week_articles` (tech_industry_recap.py,
lines 39-94): per source, a raised fetch/parse error is caught and the
loop continues (`except ... continue`); collected articles are sorted
descending by `(importance_score, published)`. -/
def fetch_past_week_articles (env : FetchEnv) (sources : List Source) :
    List TArticle :=
  List.insertionSort (fetchLe env.now)
    (sources.foldl (fun acc src =>
      match env.parse src with
      | .error _ => acc
      | .ok entries => acc ++ processSourceEntries env.now src entries) [])

/-- C8.  A source whose fetch/parse raises contributes zero entries and
the fetched article list is exactly the one obtained without that source:
a single source's failure never aborts the fetch pass. -/
theorem source_failure_isolated (env : FetchEnv) (xs ys : List Source)
    (bad : Source) (hbad : env.parse bad = .error ()) :
    fetch_past_week_articles env (xs ++ bad :: ys)
      = fetch_past_week_articles env (xs ++ ys) := by
  unfold fetch_past_week_articles
  congr 1
  rw [List.foldl_append, List.foldl_append, List.foldl_cons]
  rw [hbad]

/-- A concrete fetch oracle: `The Verge` raises, every other source
parses to one dated entry. -/
def demoFetchEnv : FetchEnv :=
  { parse := fun src =>
      if src.name = "The Verge" then Except.error ()
      else Except.ok [⟨"T", "https://x/y", "D", some 0, none, "A"⟩]
    now := 0 }

/-- Closed instance of `source_failure_isolated`: dropping the failing
`The Verge` source from a two-source run changes nothing. -/
theorem source_failure_isolated_witness :
    fetch_past_week_articles demoFetchEnv
        ([⟨"TechCrunch", "https://techcrunch.com/feed/", 1⟩]
          ++ ⟨"The Verge", "https://www.theverge.com/rss/index.xml",
              0.9⟩ :: [])
      = fetch_past_week_articles demoFetchEnv
          ([⟨"TechCrunch", "https://techcrunch.com/feed/", 1⟩] ++ []) :=
  source_failure_isolated demoFetchEnv
    [⟨"TechCrunch", "https://techcrunch.com/feed/", 1⟩] []
    ⟨"The Verge", "https://www.theverge.com/rss/index.xml", 0.9⟩ rfl

/-! ## test_ai_summarization.py: stable article identifiers (claim C7)

`fetch_latest_article` derives the article id as
`str(uuid.uuid5(uuid.NAMESPACE_URL, article_url))`.  We implement uuid5
for real: SHA-1 over the namespace bytes followed by the UTF-8 name
bytes, truncated to 16 bytes with version/variant bits set, rendered as
the dashed lowercase hex string.  32-bit machine arithmetic is modelled
on ℕ with explicit `% 2^32`.
-/

/-- Truncation to a 32-bit word. -/
def w32 (n : ℕ) : ℕ := n % 4294967296

/-- Left rotation of a 32-bit word by `k` bits. -/
def rotl (k n : ℕ) : ℕ := w32 ((n <<< k) ||| (n >>> (32 - k)))

/-- The SHA-1 round function for round `t`. -/
def sha1F (t b c d : ℕ) : ℕ :=
  if t < 20 then (b &&& c) ||| ((b ^^^ 4294967295) &&& d)
  else if t < 40 then b ^^^ c ^^^ d
  else if t < 60 then (b &&& c) ||| (b &&& d) ||| (c &&& d)
  else b ^^^ c ^^^ d

/-- The SHA-1 round constant for round `t`. -/
def sha1K (t : ℕ) : ℕ :=
  if t < 20 then 0x5A827999
  else if t < 40 then 0x6ED9EBA1
  else if t < 60 then 0x8F1BBCDC
  else 0xCA62C1D6

/-- Big-endian 8-byte encoding of a length in bits. -/
def be64 (n : ℕ) : List ℕ :=
  [n / 2 ^ 56 % 256, n / 2 ^ 48 % 256, n / 2 ^ 40 % 256, n / 2 ^ 32 % 256,
   n / 2 ^ 24 % 256, n / 2 ^ 16 % 256, n / 2 ^ 8 % 256, n % 256]

/-- Big-endian 4-byte encoding of a 32-bit word. -/
def be32 (n : ℕ) : List ℕ :=
  [n / 2 ^ 24 % 256, n / 2 ^ 16 % 256, n / 2 ^ 8 % 256, n % 256]

/-- SHA-1 message padding: `0x80`, zeros to 56 mod 64, then the bit
length big-endian. -/
def sha1Pad (msg : List ℕ) : List ℕ :=
  msg ++ 0x80 :: List.replicate ((56 + 64 - ((msg.length + 1) % 64)) % 64) 0
    ++ be64 (8 * msg.length)

/-- Split a byte list into 64-byte blocks (fuel-driven recursion on the
list length). -/
def chunk64 : ℕ → List ℕ → List (List ℕ)
  | 0, _ => []
  | _, [] => []
  | fuel + 1, b :: rest => (b :: rest).take 64 :: chunk64 fuel ((b :: rest).drop 64)

/-- Pack bytes into big-endian 32-bit words. -/
def toWords : List ℕ → List ℕ
  | b0 :: b1 :: b2 :: b3 :: rest =>
      (((b0 * 256 + b1) * 256 + b2) * 256 + b3) :: toWords rest
  | _ => []

/-- Extend 16 words to the 80-word SHA-1 message schedule. -/
def sha1Schedule (w16 : List ℕ) : List ℕ :=
  (List.range 64).foldl (fun ws _ =>
    ws ++ [rotl 1 ((ws.getD (ws.length - 3) 0) ^^^ (ws.getD (ws.length - 8) 0)
      ^^^ (ws.getD (ws.length - 14) 0) ^^^ (ws.getD (ws.length - 16) 0))])
    w16

/-- One SHA-1 compression round over the state `(a, b, c, d, e)`. -/
def sha1Round (st : ℕ × ℕ × ℕ × ℕ × ℕ) (tw : ℕ × ℕ) : ℕ × ℕ × ℕ × ℕ × ℕ :=
  (w32 (rotl 5 st.1 + sha1F tw.1 st.2.1 st.2.2.1 st.2.2.2.1
      + st.2.2.2.2 + sha1K tw.1 + tw.2),
   st.1, rotl 30 st.2.1, st.2.2.1, st.2.2.2.1)

/-- Process one 64-byte block into the running hash state. -/
def sha1Block (h : ℕ × ℕ × ℕ × ℕ × ℕ) (block : List ℕ) :
    ℕ × ℕ × ℕ × ℕ × ℕ :=
  let st := ((List.range 80).zip (sha1Schedule (toWords block))).foldl
    sha1Round h
  (w32 (h.1 + st.1), w32 (h.2.1 + st.2.1), w32 (h.2.2.1 + st.2.2.1),
   w32 (h.2.2.2.1 + st.2.2.2.1), w32 (h.2.2.2.2 + st.2.2.2.2))

/-- SHA-1 of a byte list, as a 20-byte digest. -/
def sha1 (msg : List ℕ) : List ℕ :=
  let padded := sha1Pad msg
  let h := (chunk64 padded.length padded).foldl sha1Block
    (0x67452301, 0xEFCDAB89, 0x98BADCFE, 0x10325476, 0xC3D2E1F0)
  be32 h.1 ++ be32 h.2.1 ++ be32 h.2.2.1 ++ be32 h.2.2.2.1 ++ be32 h.2.2.2.2

/-- The 16 bytes of `uuid.NAMESPACE_URL`
(`6ba7b811-9dad-11d1-80b4-00c04fd430c8`). -/
def NAMESPACE_URL : List ℕ :=
  [0x6b, 0xa7, 0xb8, 0x11, 0x9d, 0xad, 0x11, 0xd1,
   0x80, 0xb4, 0x00, 0xc0, 0x4f, 0xd4, 0x30, 0xc8]

/-- UTF-8 bytes of a string. -/
def utf8Bytes (s : String) : List ℕ :=
  s.toUTF8.toList.map (fun b => b.toNat)

/-- Lowercase hex digit. -/
def hexChar (n : ℕ) : Char :=
  "0123456789abcdef".toList.getD n (Char.ofNat 48)

/-- Two lowercase hex digits of a byte. -/
def byteHex (n : ℕ) : List Char := [hexChar (n / 16), hexChar (n % 16)]

/-- `uuid.uuid5(ns, name)` rendered with `str(...)`: SHA-1 of namespace
bytes ++ UTF-8 name bytes, first 16 bytes, version nibble set to 5 and
variant bits to 10, formatted 8-4-4-4-12 lowercase hex. -/
def uuid5 (ns : List ℕ) (name : String) : String :=
  let b := (sha1 (ns ++ utf8Bytes name)).take 16
  let bytes := b.take 6
    ++ [((b.getD 6 0) &&& 0x0F) ||| 0x50, b.getD 7 0,
        ((b.getD 8 0) &&& 0x3F) ||| 0x80]
    ++ b.drop 9
  let hex := bytes.map byteHex
  String.mk ((hex.take 4).flatten ++ ['-'] ++ ((hex.drop 4).take 2).flatten
    ++ ['-'] ++ ((hex.drop 6).take 2).flatten ++ ['-']
    ++ ((hex.drop 8).take 2).flatten ++ ['-'] ++ (hex.drop 10).flatten)

/-- A raw RSS entry as read by `fetch_latest_article`
(test_ai_summarization.py, lines 44-69), with its content field already
resolved (`content[0].value` or the description). -/
structure RssEntry where
  title : String
  link : String
  description : String
  content : String
  published : String
  author : String

/-- The article record `fetch_latest_article` builds (lines 58-69); the
id is `str(uuid.uuid5(uuid.NAMESPACE_URL, article_url))` with
`article_url = entry.link`. -/
structure TestArticle where
  id : String
  title : String
  url : String
  content : String
  source : String
  published : String
  author : String

/-- Embedding of the article construction of `fetch_latest_article`. -/
def buildArticle (sourceName : String) (e : RssEntry) : TestArticle :=
  { id := uuid5 NAMESPACE_URL e.link
    title := e.title
    url := e.link
    content := e.content
    source := sourceName
    published := e.published
    author := e.author }

/-- C7.  The derived article identifier is stable: it depends only on the
entry's URL, so deriving it twice from the same URL — across runs, with
every other field different — yields the same identifier. -/
theorem article_id_stable (s1 s2 : String) (e1 e2 : RssEntry)
    (hlink : e1.link = e2.link) :
    (buildArticle s1 e1).id = (buildArticle s2 e2).id := by
  simp [buildArticle, hlink]

/-- Closed instance of `article_id_stable`: two fetches of the same URL
with different titles, contents, sources and dates. -/
theorem article_id_stable_witness :
    (buildArticle "TechCrunch"
        ⟨"A title", "https://example.com/a", "d1", "c1", "Mon", "X"⟩).id
      = (buildArticle "Wired"
          ⟨"Other title", "https://example.com/a", "d2", "c2", "Tue",
            "Y"⟩).id :=
  article_id_stable "TechCrunch" "Wired"
    ⟨"A title", "https://example.com/a", "d1", "c1", "Mon", "X"⟩
    ⟨"Other title", "https://example.com/a", "d2", "c2", "Tue", "Y"⟩ rfl

end Moning
